import Mathlib

/-!
Verification of the similarity-clustering engine of the repository
(`src/routes/csv_analyzer_simple.py`).

The Python source is shallowly embedded below.  Python floats are modelled
as exact rationals (`ℚ`); IEEE-754 specials (`inf`, `nan`) and rounding are
outside the model.  Python strings are modelled as `String` / `List Char`;
the ASCII case mapping `Char.toLower` stands for `str.lower()`.  Perceptual
hashes (`imagehash.phash`, 8×8 = 64 bits) are modelled as length-64 boolean
lists, and the hashing function itself — which inspects actual pixels — is a
parameter `phash` of the embedding, as is the decoded-image type `Img`.
The concurrent download phase of `find_similar_products_simple` is modelled
by two explicit inputs: `results i` (the outcome of `download_image` for the
product at position `i`) and `order` (the order in which the download
futures complete, a permutation of the submitted indices); everything after
that phase is sequential and embedded directly.
-/

namespace CsvAnalyzerSimple

/-- Extend the first token with a leading character (helper of `pyWords`). -/
def glueWord (c : Char) : List (List Char) → List (List Char)
  | [] => [[c]]
  | w :: ws => (c :: w) :: ws

/-- Does the list continue with a non-whitespace character?  (Helper of
`pyWords`: it decides whether the current character is glued to the
following token or ends its own token.) -/
def startsNonWs : List Char → Bool
  | [] => false
  | c :: _ => !c.isWhitespace

/-- Tokens of a character list: the maximal runs of non-whitespace
characters, mirroring Python `str.split()` with no arguments (runs of
whitespace separate tokens, empty tokens are never produced). -/
def pyWords : List Char → List (List Char)
  | [] => []
  | c :: cs =>
    if c.isWhitespace then pyWords cs
    else if startsNonWs cs then glueWord c (pyWords cs) else [c] :: pyWords cs

/-- Python `str.lower()` (ASCII case mapping). -/
def pyLower (l : List Char) : List Char := l.map Char.toLower

/-- Python `set(title.lower().split())`. -/
def titleWords (t : String) : Finset (List Char) := (pyWords (pyLower t.data)).toFinset

/-- Embeds `calculate_title_similarity` (lines 120-139): Jaccard index of the
lower-cased whitespace-token sets; `0.0` when the union is empty. -/
def calculate_title_similarity (title1 title2 : String) : ℚ :=
  let words1 := titleWords title1
  let words2 := titleWords title2
  let intersection := words1 ∩ words2
  let un := words1 ∪ words2
  if un.card = 0 then 0
  else (intersection.card : ℚ) / (un.card : ℚ)

/-- Embeds `calculate_price_similarity` (lines 141-155). -/
def calculate_price_similarity (price1 price2 : ℚ) : ℚ :=
  if price1 = 0 ∨ price2 = 0 then 0
  else max 0 (1 - |price1 - price2| / max price1 price2)

/-- Numeric value of a digit string, most significant first. -/
def digitsToNat (cs : List Char) : ℕ := cs.foldl (fun a c => 10 * a + (c.toNat - 48)) 0

/-- Optional leading sign of a Python numeric literal. -/
def pySign : List Char → ℚ × List Char
  | '+' :: r => (1, r)
  | '-' :: r => (-1, r)
  | r => (1, r)

/-- Mantissa grammar of Python `float()`: digits with at most one point and
at least one digit overall. -/
def pyFloatCore (cs : List Char) : Option ℚ :=
  let intPart := cs.takeWhile (fun c => c != '.')
  match cs.dropWhile (fun c => c != '.') with
  | [] =>
    if intPart ≠ [] ∧ intPart.all Char.isDigit then some (digitsToNat intPart : ℚ)
    else none
  | _ :: frac =>
    if (intPart ≠ [] ∨ frac ≠ []) ∧ intPart.all Char.isDigit ∧ frac.all Char.isDigit
        ∧ '.' ∉ frac then
      some ((digitsToNat intPart : ℚ) + (digitsToNat frac : ℚ) / (10 : ℚ) ^ frac.length)
    else none

/-- Python `float()` on finite decimal literals: optional sign, digits with
at most one point, optional decimal exponent.  The IEEE specials
(`inf`, `nan`) and underscore digit separators have no rational
counterpart and are rejected by the model. -/
def pyFloat (cs0 : List Char) : Option ℚ :=
  let sgn := pySign cs0
  let mant := sgn.2.takeWhile (fun c => c != 'e' && c != 'E')
  match sgn.2.dropWhile (fun c => c != 'e' && c != 'E') with
  | [] => (pyFloatCore mant).map (fun m => sgn.1 * m)
  | _ :: expPart =>
    let esgn := pySign expPart
    if esgn.2 ≠ [] ∧ esgn.2.all Char.isDigit then
      (pyFloatCore mant).map (fun m =>
        sgn.1 * m *
          (10 : ℚ) ^ (if esgn.1 = 1 then (digitsToNat esgn.2 : ℤ) else -(digitsToNat esgn.2 : ℤ)))
    else none

/-- Python `str.strip()`: drop leading and trailing whitespace. -/
def pyStrip (cs : List Char) : List Char :=
  ((cs.dropWhile Char.isWhitespace).reverse.dropWhile Char.isWhitespace).reverse

/-- Python `.replace(',', '.')` on a single character. -/
def commaToDot (c : Char) : Char := if c = ',' then '.' else c

/-- Embeds `parse_price` (lines 72-79): remove every `€`, turn every `,` into `.`,
strip, parse as float; `0.0` on any failure (the bare `except`). -/
def parse_price (price_str : String) : ℚ :=
  let price_clean := (price_str.data.filter (fun c => c != '€')).map commaToDot
  match pyFloat (pyStrip price_clean) with
  | some v => v
  | none => 0

/-- A 64-bit perceptual hash (`imagehash.phash`, 8×8 bits). -/
abbrev ImgHash := { l : List Bool // l.length = 64 }

/-- Hamming distance of two hashes (`hash1 - hash2` in imagehash). -/
def hashDiff (h1 h2 : ImgHash) : ℕ :=
  ((h1.1.zip h2.1).filter (fun p => p.1 != p.2)).length

/-- Embeds `image_hash_similarity` (lines 61-70): `max(0, 1 - diff/64)`, `0.0`
when either hash is `None`. -/
def image_hash_similarity (hash1 hash2 : Option ImgHash) : ℚ :=
  match hash1, hash2 with
  | some h1, some h2 => max 0 (1 - (hashDiff h1 h2 : ℚ) / 64)
  | _, _ => 0

/-- The process-wide `image_hash_cache`, newest entry first. -/
abbrev HashCache := List (String × ImgHash)

/-- Lookup in the URL → hash cache. -/
def cacheLookup (cache : HashCache) (url : String) : Option ImgHash :=
  (cache.find? (fun e => e.1 == url)).map (fun e => e.2)

/-- Embeds `calculate_image_hash` (lines 43-59): return the cached hash when the
URL is truthy and cached; otherwise hash the image (`phash` failure is the
caught exception returning `None`) and cache the result under a truthy
URL. -/
def calculate_image_hash {Img : Type} (phash : Img → Option ImgHash)
    (cache : HashCache) (image : Img) (url : String) : Option ImgHash × HashCache :=
  if url ≠ "" ∧ (cacheLookup cache url).isSome then (cacheLookup cache url, cache)
  else
    match phash image with
    | some h => (some h, if url ≠ "" then (url, h) :: cache else cache)
    | none => (none, cache)

/-- The dict returned by `calculate_comprehensive_similarity`. -/
structure SimResult where
  comprehensive_score : ℚ
  image_similarity : ℚ
  title_similarity : ℚ
  price_similarity : ℚ
  deriving DecidableEq

/-- A normalized product record (`parse_csv_data`, lines 91-110). -/
structure Product where
  image_url : String
  product_url : String
  title : String
  price_without_tax : String
  sales_volume : String
  last_sold_time : String
  source_file : String
  price_numeric : ℚ
  volume_numeric : ℤ
  total_sales : ℚ
  deriving DecidableEq

/-- Embeds `quick_filter_by_title_and_price` (lines 157-177).  The Python
defaults are `min_title_similarity=0.3`, `max_price_diff=0.5`. -/
def quick_filter_by_title_and_price (product1 product2 : Product)
    (min_title_similarity max_price_diff : ℚ) : Bool :=
  let title_sim := calculate_title_similarity product1.title product2.title
  if title_sim < min_title_similarity then false
  else
    let price1 := product1.price_numeric
    let price2 := product2.price_numeric
    if 0 < price1 ∧ 0 < price2 then
      if max_price_diff < |price1 - price2| / max price1 price2 then false else true
    else true

/-- Embeds `calculate_comprehensive_similarity` (lines 179-209): image weight 0.4
(0 when either image is absent), title weight 0.4, price weight 0.2; the
hash cache is threaded through the two `calculate_image_hash` calls. -/
def calculate_comprehensive_similarity {Img : Type} (phash : Img → Option ImgHash)
    (product1 product2 : Product) (img1 img2 : Option Img) (cache : HashCache) :
    SimResult × HashCache :=
  let isim : ℚ × HashCache :=
    match img1, img2 with
    | some i1, some i2 =>
      let r1 := calculate_image_hash phash cache i1 product1.image_url
      let r2 := calculate_image_hash phash r1.2 i2 product2.image_url
      (image_hash_similarity r1.1 r2.1, r2.2)
    | _, _ => (0, cache)
  let image_similarity := isim.1
  let title_similarity := calculate_title_similarity product1.title product2.title
  let price_similarity :=
    calculate_price_similarity product1.price_numeric product2.price_numeric
  ({ comprehensive_score :=
        image_similarity * 0.4 + title_similarity * 0.4 + price_similarity * 0.2,
     image_similarity := image_similarity,
     title_similarity := title_similarity,
     price_similarity := price_similarity }, isim.2)

/-- One entry of a similarity group: the original index, the product, and
(for non-seed members) the similarity details. -/
structure Member where
  index : ℕ
  product : Product
  similarity_details : Option SimResult
  deriving DecidableEq

/-- The adaptive threshold rule (lines 291-296): `0.4` when both the title
and the price similarity exceed `0.8`, otherwise the caller-supplied
threshold. -/
def adjusted_threshold_for (threshold : ℚ) (simres : SimResult) : ℚ :=
  if 0.8 < simres.title_similarity ∧ 0.8 < simres.price_similarity then 0.4 else threshold

/-- The inner loop of `find_similar_products_simple` (lines 273-306): walk
the candidates after the seed, skip processed ones, skip pairs rejected by
the quick filter, score the rest and admit a candidate exactly when its
comprehensive score reaches the adaptive threshold.  Returns the admitted
members (in order), the updated `processed` list and the updated hash
cache. -/
def innerLoop {Img : Type} (phash : Img → Option ImgHash) (threshold : ℚ)
    (images : ℕ → Option Img) (product1 : Product) (idx1 : ℕ) :
    List (ℕ × Product) → List ℕ → HashCache → List Member × List ℕ × HashCache
  | [], processed, cache => ([], processed, cache)
  | (idx2, product2) :: rest, processed, cache =>
    if idx2 ∈ processed then innerLoop phash threshold images product1 idx1 rest processed cache
    else if ¬ quick_filter_by_title_and_price product1 product2 0.3 0.5 then
      innerLoop phash threshold images product1 idx1 rest processed cache
    else
      let pr := calculate_comprehensive_similarity phash product1 product2
        (images idx1) (images idx2) cache
      let simres := pr.1
      let adjusted_threshold : ℚ := adjusted_threshold_for threshold simres
      if adjusted_threshold ≤ simres.comprehensive_score then
        let r := innerLoop phash threshold images product1 idx1 rest (idx2 :: processed) pr.2
        (⟨idx2, product2, some simres⟩ :: r.1, r.2.1, r.2.2)
      else innerLoop phash threshold images product1 idx1 rest processed pr.2

/-- The outer loop of `find_similar_products_simple` (lines 266-315):
each unprocessed record seeds a group, candidates after it are admitted by
`innerLoop`, and the group is emitted only when it has more than one
member.  Group ids are the positions in the returned list. -/
def outerLoop {Img : Type} (phash : Img → Option ImgHash) (threshold : ℚ)
    (images : ℕ → Option Img) :
    List (ℕ × Product) → List ℕ → HashCache → List (List Member)
  | [], _, _ => []
  | (idx1, product1) :: rest, processed, cache =>
    if idx1 ∈ processed then outerLoop phash threshold images rest processed cache
    else
      let r := innerLoop phash threshold images product1 idx1 rest (idx1 :: processed) cache
      let current_group := (⟨idx1, product1, none⟩ : Member) :: r.1
      if 1 < current_group.length then
        current_group :: outerLoop phash threshold images rest r.2.1 r.2.2
      else outerLoop phash threshold images rest r.2.1 r.2.2

/-- Indices submitted to the download pool (line 230): exactly the
positions whose `image_url` is truthy (non-empty).  Products with an empty
`image_url` are never submitted — and, in the source, never appended to
`valid_products` either. -/
def submittedIdxs (products : List Product) : List ℕ :=
  (products.enum.filter (fun ip => ip.2.image_url ≠ "")).map Prod.fst

/-- Embeds `find_similar_products_simple` (lines 219-322).  `results i` is the
outcome of `download_image` for the product at position `i`; `order` is
the completion order of the download futures (the `as_completed`
iteration), so `valid_products` is the `order`-permuted list of submitted
(index, product) pairs, and the `images` dict holds the successful
downloads of submitted products. -/
def find_similar_products_simple {Img : Type} (phash : Img → Option ImgHash)
    (results : ℕ → Option Img) (order : List ℕ) (products : List Product)
    (similarity_threshold : ℚ) (cache : HashCache) : List (List Member) :=
  let valid_products := order.filterMap (fun i => (products.get? i).map (fun p => (i, p)))
  let images : ℕ → Option Img := fun i => if i ∈ submittedIdxs products then results i else none
  outerLoop phash similarity_threshold images valid_products [] cache

/-- A concrete record as the normalizer would build it, for witnesses. -/
def sampleProduct (t : String) (p : ℚ) (url : String) : Product :=
  { image_url := url, product_url := "", title := t, price_without_tax := "",
    sales_volume := "1", last_sold_time := "", source_file := "f.csv",
    price_numeric := p, volume_numeric := 1, total_sales := p }

/-! ### Character and token lemmas -/

theorem charToNat_inj {a b : Char} (h : a.toNat = b.toNat) : a = b :=
  Char.eq_of_val_eq (UInt32.ext h)

theorem isWhitespace_iff_toNat (c : Char) :
    c.isWhitespace = true ↔ c.toNat = 32 ∨ c.toNat = 9 ∨ c.toNat = 13 ∨ c.toNat = 10 := by
  simp only [Char.isWhitespace, Bool.or_eq_true, decide_eq_true_eq]
  constructor
  · rintro (((h | h) | h) | h) <;> subst h <;> simp [Char.toNat]
  · rintro (h | h | h | h)
    · exact Or.inl (Or.inl (Or.inl (charToNat_inj h)))
    · exact Or.inl (Or.inl (Or.inr (charToNat_inj h)))
    · exact Or.inl (Or.inr (charToNat_inj h))
    · exact Or.inr (charToNat_inj h)

theorem toLower_isWhitespace (c : Char) : c.toLower.isWhitespace = c.isWhitespace := by
  have hdef : c.toLower =
      if c.toNat ≥ 65 ∧ c.toNat ≤ 90 then Char.ofNat (c.toNat + 32) else c := rfl
  rw [hdef]
  split
  · rename_i hn
    have hv : Nat.isValidChar (c.toNat + 32) := Or.inl (by omega)
    have ht : (Char.ofNat (c.toNat + 32)).toNat = c.toNat + 32 := by
      simp only [Char.ofNat, dif_pos hv]; rfl
    have h1 : (Char.ofNat (c.toNat + 32)).isWhitespace = false := by
      rw [Bool.eq_false_iff]
      intro hw
      rcases (isWhitespace_iff_toNat _).mp hw with h | h | h | h <;> rw [ht] at h <;> omega
    have h2 : c.isWhitespace = false := by
      rw [Bool.eq_false_iff]
      intro hw
      rcases (isWhitespace_iff_toNat _).mp hw with h | h | h | h <;> omega
    rw [h1, h2]
  · rfl

theorem glueWord_ne_nil (c : Char) (l : List (List Char)) : glueWord c l ≠ [] := by
  cases l <;> simp [glueWord]

theorem pyWords_eq_nil_iff (l : List Char) :
    pyWords l = [] ↔ ∀ c ∈ l, c.isWhitespace = true := by
  induction l with
  | nil => simp [pyWords]
  | cons c cs ih =>
    by_cases hc : c.isWhitespace
    · simpa [pyWords, hc] using ih
    · simp only [pyWords, if_neg hc]
      constructor
      · intro h
        exfalso
        by_cases hs : startsNonWs cs
        · rw [if_pos hs] at h
          exact glueWord_ne_nil c (pyWords cs) h
        · rw [if_neg hs] at h
          exact List.cons_ne_nil _ _ h
      · intro h
        exact absurd (h c (List.mem_cons_self c cs)) hc

theorem pyWords_ne_nil (l : List Char) (h : ∃ c ∈ l, ¬ c.isWhitespace = true) :
    pyWords l ≠ [] := by
  intro hnil
  obtain ⟨c, hc, hw⟩ := h
  exact hw ((pyWords_eq_nil_iff l).mp hnil c hc)

theorem titleWords_card_ne_zero (t : String) (h : ∃ c ∈ t.data, ¬ c.isWhitespace = true) :
    (titleWords t).card ≠ 0 := by
  obtain ⟨c, hc, hw⟩ := h
  have hlow : ∃ d ∈ pyLower t.data, ¬ d.isWhitespace = true := by
    refine ⟨c.toLower, List.mem_map_of_mem Char.toLower hc, ?_⟩
    rw [toLower_isWhitespace]; exact hw
  have hne := pyWords_ne_nil _ hlow
  rw [Finset.card_ne_zero]
  obtain ⟨w, hws⟩ := List.exists_mem_of_ne_nil _ hne
  exact ⟨w, List.mem_toFinset.mpr hws⟩

theorem titleWords_empty (t : String) (h : ∀ c ∈ t.data, c.isWhitespace = true) :
    titleWords t = ∅ := by
  have : pyWords (pyLower t.data) = [] := by
    rw [pyWords_eq_nil_iff]
    intro d hd
    obtain ⟨c, hc, rfl⟩ := List.mem_map.mp hd
    rw [toLower_isWhitespace]; exact h c hc
  simp [titleWords, this]

/-! ### C4: title similarity -/

/-- C4, counterexample: the claim asserts `titleSimilarity(t, t) = 1.0` for
every non-empty string `t`, but for the non-empty whitespace-only title
`" "` the token sets are empty, so the union-empty branch returns `0.0`. -/
theorem title_similarity_whitespace_counterexample :
    calculate_title_similarity " " " " = 0 ∧ (" " : String) ≠ "" := by
  constructor
  · have h2 : titleWords " " = ∅ := by decide
    simp [calculate_title_similarity, h2]
  · decide

/-- C4 (amended): `titleSimilarity` is the Jaccard index of the
whitespace-token sets of the lower-cased titles (`0.0` on an empty union) —
this is `calculate_title_similarity` definitionally — hence
`titleSimilarity(t, t) = 1.0` for every `t` containing at least one
non-whitespace character (rather than every non-empty `t`), and
`titleSimilarity("a b", "c d") = 0.0` for disjoint token sets. -/
theorem title_similarity_self_amended :
    (∀ t : String, (∃ c ∈ t.data, ¬ c.isWhitespace = true) →
      calculate_title_similarity t t = 1) ∧
    calculate_title_similarity "a b" "c d" = 0 := by
  constructor
  · intro t ht
    have hcard := titleWords_card_ne_zero t ht
    simp only [calculate_title_similarity, Finset.inter_self, Finset.union_self,
      if_neg hcard]
    rw [div_self (by exact_mod_cast hcard)]
  · have h1 : (titleWords "a b" ∩ titleWords "c d").card = 0 := by decide
    have h2 : (titleWords "a b" ∪ titleWords "c d").card = 4 := by decide
    simp [calculate_title_similarity, h1, h2]

/-- C4, witness: the amended self-similarity theorem applied to the
concrete title `"Apple iPhone"`. -/
theorem title_similarity_self_amended_witness :
    calculate_title_similarity "Apple iPhone" "Apple iPhone" = 1 :=
  title_similarity_self_amended.1 "Apple iPhone" ⟨'A', by decide, by decide⟩

/-! ### C5: price similarity -/

/-- C5: `calculate_price_similarity` returns `0.0` when either price is
exactly zero, and otherwise `max(0, 1 - |p1 - p2| / max(p1, p2))`; in
particular it is `1.0` on equal positive prices and `0.0` whenever the
first price is zero. -/
theorem price_similarity_spec :
    (∀ p : ℚ, 0 < p → calculate_price_similarity p p = 1) ∧
    (∀ x : ℚ, calculate_price_similarity 0 x = 0) ∧
    (∀ p1 p2 : ℚ, p1 = 0 ∨ p2 = 0 → calculate_price_similarity p1 p2 = 0) ∧
    (∀ p1 p2 : ℚ, p1 ≠ 0 → p2 ≠ 0 →
      calculate_price_similarity p1 p2 = max 0 (1 - |p1 - p2| / max p1 p2)) := by
  refine ⟨?_, ?_, ?_, ?_⟩
  · intro p hp
    rw [calculate_price_similarity, if_neg (by push_neg; exact ⟨ne_of_gt hp, ne_of_gt hp⟩)]
    simp
  · intro x
    rw [calculate_price_similarity, if_pos (Or.inl rfl)]
  · intro p1 p2 h
    rw [calculate_price_similarity, if_pos h]
  · intro p1 p2 h1 h2
    rw [calculate_price_similarity, if_neg (by push_neg; exact ⟨h1, h2⟩)]

/-- C5, witness: the spec theorem applied at the concrete prices 5, 0, 7
and the pair (4, 2). -/
theorem price_similarity_spec_witness :
    calculate_price_similarity 5 5 = 1 ∧ calculate_price_similarity 0 7 = 0 ∧
    calculate_price_similarity 4 2 = max 0 (1 - |(4 : ℚ) - 2| / max 4 2) :=
  ⟨price_similarity_spec.1 5 (by norm_num), price_similarity_spec.2.1 7,
    price_similarity_spec.2.2.2 4 2 (by norm_num) (by norm_num)⟩

/-! ### C2: price parsing -/

/-- Inverse transcription used to state the comma-decimal property. -/
def dotToComma (c : Char) : Char := if c = '.' then ',' else c

theorem commaToDot_dotToComma (c : Char) : commaToDot (dotToComma c) = commaToDot c := by
  by_cases h1 : c = '.'
  · subst h1; decide
  · by_cases h2 : c = ','
    · subst h2; decide
    · simp [commaToDot, dotToComma, h1, h2]

theorem euroFilter_dotToComma (c : Char) : ((dotToComma c) != '€') = (c != '€') := by
  by_cases h1 : c = '.'
  · subst h1; decide
  · simp [dotToComma, h1]

theorem parse_price_euro_stripped (s : String) : parse_price ("€" ++ s) = parse_price s := by
  have h : ("€" ++ s).data.filter (fun c => c != '€') = s.data.filter (fun c => c != '€') := by
    rw [String.data_append, List.filter_append]
    simp
  simp only [parse_price]
  rw [h]

theorem parse_price_comma_form (s : String) :
    parse_price (String.mk (s.data.map dotToComma)) = parse_price s := by
  have h : ((String.mk (s.data.map dotToComma)).data.filter (fun c => c != '€')).map commaToDot
      = (s.data.filter (fun c => c != '€')).map commaToDot := by
    show ((s.data.map dotToComma).filter (fun c => c != '€')).map commaToDot = _
    rw [List.filter_map, List.map_map]
    have hp : ((fun c => c != '€') ∘ dotToComma) = (fun c => c != '€') := by
      funext c; exact euroFilter_dotToComma c
    rw [hp]
    exact List.map_congr_left (fun a _ => commaToDot_dotToComma a)
  simp only [parse_price]
  rw [h]

/-- Modelled from the spec: the parsing step the claim describes — strip
the currency symbol AND the thousands separators (the `.` grouping marks of
a comma-decimal price), convert the decimal comma to a point, parse as
float, `0.0` on failure.  `parse_price` in the source performs no
thousands-separator stripping, so the two differ. -/
def parse_price_claimed (price_str : String) : ℚ :=
  let cleaned :=
    ((price_str.data.filter (fun c => c != '€')).filter (fun c => c != '.')).map commaToDot
  match pyFloat (pyStrip cleaned) with
  | some v => v
  | none => 0

/-- C2, counterexample: on the grouped price `"€1.234,56"` the source's
`parse_price` replaces the comma by a point, obtains `"1.234.56"` — two
points — so `float()` fails and `0.0` is returned, while the parsing the
claim describes (thousands separators stripped) yields `1234.56`. -/
theorem parse_price_thousands_counterexample :
    parse_price "€1.234,56" = 0 ∧ parse_price_claimed "€1.234,56" = 30864/25 ∧
      (0 : ℚ) ≠ 30864/25 := by
  refine ⟨?_, ?_, by norm_num⟩
  · have h1 : pyStrip (("€1.234,56".data.filter (fun c => c != '€')).map commaToDot)
        = ['1', '.', '2', '3', '4', '.', '5', '6'] := by decide
    simp only [parse_price, h1]
    have h2 : pyFloat ['1', '.', '2', '3', '4', '.', '5', '6'] = none := by
      simp [pyFloat, pySign, pyFloatCore, digitsToNat]
    rw [h2]
  · have h1 : pyStrip ((("€1.234,56".data.filter (fun c => c != '€')).filter
        (fun c => c != '.')).map commaToDot) = ['1', '2', '3', '4', '.', '5', '6'] := by decide
    simp only [parse_price_claimed, h1]
    have h2 : pyFloat ['1', '2', '3', '4', '.', '5', '6'] = some (30864/25) := by
      simp [pyFloat, pySign, pyFloatCore, digitsToNat]
      norm_num
    rw [h2]

/-- C2 (amended): `parse_price` strips every `€`, converts every comma to
a point (it does NOT strip thousands separators: a grouped price string
fails to parse and yields `0.0`), parses the result as a float and returns
`0.0` on any failure, never raising; every price string written with a
leading `€` and `,` as decimal separator parses to the same value as its
`.`-separated form, e.g. `"€12,50"` to `12.50`. -/
theorem parse_price_amended :
    (∀ s : String, parse_price ("€" ++ s) = parse_price s) ∧
    (∀ s : String, parse_price ("€" ++ String.mk (s.data.map dotToComma)) = parse_price s) ∧
    parse_price "€12,50" = 25/2 ∧ parse_price "€1.234,56" = 0 := by
  refine ⟨parse_price_euro_stripped, ?_, ?_, ?_⟩
  · intro s
    exact (parse_price_euro_stripped _).trans (parse_price_comma_form s)
  · have h1 : pyStrip (("€12,50".data.filter (fun c => c != '€')).map commaToDot)
        = ['1', '2', '.', '5', '0'] := by decide
    simp only [parse_price, h1]
    have h2 : pyFloat ['1', '2', '.', '5', '0'] = some (25/2) := by
      simp [pyFloat, pySign, pyFloatCore, digitsToNat]
      norm_num
    rw [h2]
  · have h1 : pyStrip (("€1.234,56".data.filter (fun c => c != '€')).map commaToDot)
        = ['1', '.', '2', '3', '4', '.', '5', '6'] := by decide
    simp only [parse_price, h1]
    have h2 : pyFloat ['1', '.', '2', '3', '4', '.', '5', '6'] = none := by
      simp [pyFloat, pySign, pyFloatCore, digitsToNat]
    rw [h2]

/-! ### C3: bounds of the comprehensive score -/

theorem title_similarity_nonneg (t1 t2 : String) : 0 ≤ calculate_title_similarity t1 t2 := by
  simp only [calculate_title_similarity]
  split
  · exact le_refl 0
  · positivity

theorem title_similarity_le_one (t1 t2 : String) : calculate_title_similarity t1 t2 ≤ 1 := by
  simp only [calculate_title_similarity]
  split
  · norm_num
  · rename_i h
    have hpos : (0 : ℚ) < ((titleWords t1 ∪ titleWords t2).card : ℚ) := by
      exact_mod_cast Nat.pos_of_ne_zero h
    rw [div_le_one hpos]
    exact_mod_cast Finset.card_le_card
      ((Finset.inter_subset_left).trans Finset.subset_union_left)

theorem image_hash_similarity_nonneg (h1 h2 : Option ImgHash) :
    0 ≤ image_hash_similarity h1 h2 := by
  cases h1 <;> cases h2 <;> simp [image_hash_similarity]

theorem image_hash_similarity_le_one (h1 h2 : Option ImgHash) :
    image_hash_similarity h1 h2 ≤ 1 := by
  cases h1 with
  | none => simp [image_hash_similarity]
  | some a =>
    cases h2 with
    | none => simp [image_hash_similarity]
    | some b =>
      simp only [image_hash_similarity]
      refine max_le (by norm_num) ?_
      have : (0 : ℚ) ≤ (hashDiff a b : ℚ) / 64 := by positivity
      linarith

theorem price_similarity_nonneg (p1 p2 : ℚ) : 0 ≤ calculate_price_similarity p1 p2 := by
  unfold calculate_price_similarity
  split
  · exact le_refl 0
  · exact le_max_left 0 _

theorem price_similarity_le_one (p1 p2 : ℚ) (h1 : 0 ≤ p1) (h2 : 0 ≤ p2) :
    calculate_price_similarity p1 p2 ≤ 1 := by
  unfold calculate_price_similarity
  split
  · norm_num
  · rename_i h
    push_neg at h
    have hp1 : 0 < p1 := lt_of_le_of_ne h1 (Ne.symm h.1)
    have hp2 : 0 < p2 := lt_of_le_of_ne h2 (Ne.symm h.2)
    have hmax : 0 < max p1 p2 := lt_max_of_lt_left hp1
    have habs : 0 ≤ |p1 - p2| / max p1 p2 := div_nonneg (abs_nonneg _) hmax.le
    exact max_le (by norm_num) (by linarith)

/-- C3, counterexample: negative `priceNumeric` values — producible by the
normalizer, since `parse_price "-1" = -1` — make the price similarity
exceed 1 (here it is 100), so the comprehensive score reaches
`0.4·1 + 0.2·100 = 20.4 > 1`. -/
theorem comprehensive_score_no_images {Img : Type} (phash : Img → Option ImgHash)
    (product1 product2 : Product) (cache : HashCache) :
    (calculate_comprehensive_similarity phash product1 product2 none none
      cache).1.comprehensive_score =
    0 * 0.4 + calculate_title_similarity product1.title product2.title * 0.4 +
      calculate_price_similarity product1.price_numeric product2.price_numeric * 0.2 := rfl

theorem comprehensive_score_none_some {Img : Type} (phash : Img → Option ImgHash)
    (product1 product2 : Product) (i2 : Img) (cache : HashCache) :
    (calculate_comprehensive_similarity phash product1 product2 none (some i2)
      cache).1.comprehensive_score =
    0 * 0.4 + calculate_title_similarity product1.title product2.title * 0.4 +
      calculate_price_similarity product1.price_numeric product2.price_numeric * 0.2 := rfl

theorem comprehensive_score_some_none {Img : Type} (phash : Img → Option ImgHash)
    (product1 product2 : Product) (i1 : Img) (cache : HashCache) :
    (calculate_comprehensive_similarity phash product1 product2 (some i1) none
      cache).1.comprehensive_score =
    0 * 0.4 + calculate_title_similarity product1.title product2.title * 0.4 +
      calculate_price_similarity product1.price_numeric product2.price_numeric * 0.2 := rfl

theorem comprehensive_score_some_some {Img : Type} (phash : Img → Option ImgHash)
    (product1 product2 : Product) (i1 i2 : Img) (cache : HashCache) :
    (calculate_comprehensive_similarity phash product1 product2 (some i1) (some i2)
      cache).1.comprehensive_score =
    image_hash_similarity (calculate_image_hash phash cache i1 product1.image_url).1
        (calculate_image_hash phash
          (calculate_image_hash phash cache i1 product1.image_url).2
          i2 product2.image_url).1 * 0.4 +
      calculate_title_similarity product1.title product2.title * 0.4 +
      calculate_price_similarity product1.price_numeric product2.price_numeric * 0.2 := rfl

theorem comprehensive_score_unbounded_counterexample :
    (calculate_comprehensive_similarity (fun _ : Unit => none) (sampleProduct "a" (-1) "")
      (sampleProduct "a" (-100) "") none none []).1.comprehensive_score = 102/5 ∧
    ¬ (calculate_comprehensive_similarity (fun _ : Unit => none) (sampleProduct "a" (-1) "")
      (sampleProduct "a" (-100) "") none none []).1.comprehensive_score ≤ 1 ∧
    parse_price "-1" = -1 ∧ parse_price "-100" = -100 := by
  have hscore : (calculate_comprehensive_similarity (fun _ : Unit => none)
      (sampleProduct "a" (-1) "") (sampleProduct "a" (-100) "")
      none none []).1.comprehensive_score = 102/5 := by
    have htw : titleWords "a" = {['a']} := by decide
    have htitle : calculate_title_similarity "a" "a" = 1 := by
      simp [calculate_title_similarity, htw]
    have hprice : calculate_price_similarity (-1) (-100) = 100 := by
      rw [calculate_price_similarity, if_neg (by norm_num)]
      norm_num
    rw [comprehensive_score_no_images]
    show 0 * 0.4 + calculate_title_similarity "a" "a" * 0.4 +
      calculate_price_similarity (-1) (-100) * 0.2 = 102/5
    rw [htitle, hprice]
    norm_num
  refine ⟨hscore, by rw [hscore]; norm_num, ?_, ?_⟩
  · have h1 : pyStrip (("-1".data.filter (fun c => c != '€')).map commaToDot)
        = ['-', '1'] := by decide
    simp only [parse_price, h1]
    have h2 : pyFloat ['-', '1'] = some (-1) := by
      simp [pyFloat, pySign, pyFloatCore, digitsToNat]
    rw [h2]
  · have h1 : pyStrip (("-100".data.filter (fun c => c != '€')).map commaToDot)
        = ['-', '1', '0', '0'] := by decide
    simp only [parse_price, h1]
    have h2 : pyFloat ['-', '1', '0', '0'] = some (-100) := by
      simp [pyFloat, pySign, pyFloatCore, digitsToNat]
    rw [h2]

/-- C3 (amended): for all records whose `priceNumeric` values are
nonnegative (every price the parser derives from a well-formed price
string), and for all images, hashes and cache states, the comprehensive
score `0.4·imageSim + 0.4·titleSim + 0.2·priceSim` lies in `[0, 1]`.
Without the nonnegativity restriction the bound fails (see the
counterexample): the price similarity is unbounded on negative prices. -/
theorem comprehensive_score_bounded_of_nonneg_prices {Img : Type}
    (phash : Img → Option ImgHash) (product1 product2 : Product)
    (img1 img2 : Option Img) (cache : HashCache)
    (h1 : 0 ≤ product1.price_numeric) (h2 : 0 ≤ product2.price_numeric) :
    0 ≤ (calculate_comprehensive_similarity phash product1 product2
        img1 img2 cache).1.comprehensive_score ∧
      (calculate_comprehensive_similarity phash product1 product2
        img1 img2 cache).1.comprehensive_score ≤ 1 := by
  have ht0 := title_similarity_nonneg product1.title product2.title
  have ht1 := title_similarity_le_one product1.title product2.title
  have hp0 := price_similarity_nonneg product1.price_numeric product2.price_numeric
  have hp1 := price_similarity_le_one product1.price_numeric product2.price_numeric h1 h2
  cases img1 with
  | none =>
    cases img2 with
    | none =>
      rw [comprehensive_score_no_images]
      constructor <;> linarith
    | some i2 =>
      rw [comprehensive_score_none_some]
      constructor <;> linarith
  | some i1 =>
    cases img2 with
    | none =>
      rw [comprehensive_score_some_none]
      constructor <;> linarith
    | some i2 =>
      rw [comprehensive_score_some_some]
      have hi0 := image_hash_similarity_nonneg
        (calculate_image_hash phash cache i1 product1.image_url).1
        (calculate_image_hash phash
          (calculate_image_hash phash cache i1 product1.image_url).2 i2 product2.image_url).1
      have hi1 := image_hash_similarity_le_one
        (calculate_image_hash phash cache i1 product1.image_url).1
        (calculate_image_hash phash
          (calculate_image_hash phash cache i1 product1.image_url).2 i2 product2.image_url).1
      constructor <;> linarith

/-- C3, witness: the amended bound applied to two concrete records with
nonnegative prices. -/
theorem comprehensive_score_bounded_witness :
    0 ≤ (calculate_comprehensive_similarity (fun _ : Unit => none)
        (sampleProduct "apple" 10 "") (sampleProduct "apple pie" 12 "")
        none none []).1.comprehensive_score ∧
      (calculate_comprehensive_similarity (fun _ : Unit => none)
        (sampleProduct "apple" 10 "") (sampleProduct "apple pie" 12 "")
        none none []).1.comprehensive_score ≤ 1 :=
  comprehensive_score_bounded_of_nonneg_prices (fun _ : Unit => none)
    (sampleProduct "apple" 10 "") (sampleProduct "apple pie" 12 "") none none []
    (by norm_num [sampleProduct]) (by norm_num [sampleProduct])

/-! ### C7: quick filter -/

theorem quick_filter_eq (product1 product2 : Product) (mts mpd : ℚ) :
    quick_filter_by_title_and_price product1 product2 mts mpd =
      if calculate_title_similarity product1.title product2.title < mts then false
      else if 0 < product1.price_numeric ∧ 0 < product2.price_numeric then
        if mpd < |product1.price_numeric - product2.price_numeric| /
            max product1.price_numeric product2.price_numeric then false
        else true
      else true := rfl

/-- C7, counterexample: titles both `"a"`, prices `-1` and `2` — both
prices are nonzero and the relative difference is `3/2 > 0.5`, so by the
claim the pair must be rejected; the source only runs the price check when
`price1 > 0 and price2 > 0`, so it passes the pair. -/
theorem quick_filter_negative_price_counterexample :
    quick_filter_by_title_and_price (sampleProduct "a" (-1) "") (sampleProduct "a" 2 "")
        0.3 0.5 = true ∧
      (sampleProduct "a" (-1) "").price_numeric ≠ 0 ∧
      (sampleProduct "a" 2 "").price_numeric ≠ 0 ∧
      (0.5 : ℚ) <
        |(sampleProduct "a" (-1) "").price_numeric - (sampleProduct "a" 2 "").price_numeric| /
          max (sampleProduct "a" (-1) "").price_numeric (sampleProduct "a" 2 "").price_numeric ∧
      ¬ calculate_title_similarity "a" "a" < 0.3 := by
  have htitle : calculate_title_similarity "a" "a" = 1 := by
    have htw : titleWords "a" = {['a']} := by decide
    simp [calculate_title_similarity, htw]
  refine ⟨?_, by norm_num [sampleProduct], by norm_num [sampleProduct], ?_, ?_⟩
  · rw [quick_filter_eq]
    show (if calculate_title_similarity "a" "a" < 0.3 then false
      else if 0 < (-1 : ℚ) ∧ 0 < (2 : ℚ) then
        if (0.5 : ℚ) < |(-1 : ℚ) - 2| / max (-1 : ℚ) 2 then false else true
      else true) = true
    rw [htitle]
    norm_num
  · show (0.5 : ℚ) < |(-1 : ℚ) - 2| / max (-1 : ℚ) 2
    norm_num
  · rw [htitle]; norm_num

/-- C7 (amended): the quick filter rejects a pair exactly when the title
similarity is below `minTitleSim`, or when both prices are STRICTLY
POSITIVE (not merely nonzero, as the claim says) and the relative price
difference exceeds `maxPriceDiff`; pairs with a nonpositive price are
never price-rejected.  (The claim's internal-failure clause concerns
Python exceptions, which cannot arise in this total model.) -/
theorem quick_filter_reject_iff (product1 product2 : Product) (mts mpd : ℚ) :
    quick_filter_by_title_and_price product1 product2 mts mpd = false ↔
      (calculate_title_similarity product1.title product2.title < mts ∨
        (0 < product1.price_numeric ∧ 0 < product2.price_numeric ∧
          mpd < |product1.price_numeric - product2.price_numeric| /
            max product1.price_numeric product2.price_numeric)) := by
  rw [quick_filter_eq]
  by_cases h1 : calculate_title_similarity product1.title product2.title < mts
  · simp [h1]
  · rw [if_neg h1]
    by_cases h2 : 0 < product1.price_numeric ∧ 0 < product2.price_numeric
    · rw [if_pos h2]
      by_cases h3 : mpd < |product1.price_numeric - product2.price_numeric| /
          max product1.price_numeric product2.price_numeric
      · simp [h1, h2, h3]
      · simp [h1, h2, h3]
    · simp only [if_neg h2]
      simp only [Bool.true_eq_false, false_iff]
      push_neg at h2
      rintro (hc | ⟨hp1, hp2, _⟩)
      · exact h1 hc
      · exact absurd (h2 hp1) (not_le.mpr hp2)

/-! ### C6: admission rule of the cluster builder -/

theorem innerLoop_members_index {Img : Type} (phash : Img → Option ImgHash) (threshold : ℚ)
    (images : ℕ → Option Img) (product1 : Product) (idx1 : ℕ) :
    ∀ (rest : List (ℕ × Product)) (processed : List ℕ) (cache : HashCache),
      ∀ m ∈ (innerLoop phash threshold images product1 idx1 rest processed cache).1,
        m.index ∈ rest.map Prod.fst := by
  intro rest
  induction rest with
  | nil =>
    intro processed cache m hm
    simp [innerLoop] at hm
  | cons hd tl ih =>
    obtain ⟨idx2, product2⟩ := hd
    intro processed cache m hm
    simp only [innerLoop] at hm
    by_cases hp : idx2 ∈ processed
    · rw [if_pos hp] at hm
      exact List.mem_cons_of_mem _ (ih processed cache m hm)
    · rw [if_neg hp] at hm
      by_cases hq : quick_filter_by_title_and_price product1 product2 0.3 0.5
      · rw [if_neg (by simp [hq])] at hm
        by_cases hadm : adjusted_threshold_for threshold
            (calculate_comprehensive_similarity phash product1 product2
              (images idx1) (images idx2) cache).1 ≤
            (calculate_comprehensive_similarity phash product1 product2
              (images idx1) (images idx2) cache).1.comprehensive_score
        · rw [if_pos hadm] at hm
          rcases List.mem_cons.mp hm with h | h
          · subst h
            exact List.mem_cons_self _ _
          · exact List.mem_cons_of_mem _ (ih _ _ m h)
        · rw [if_neg hadm] at hm
          exact List.mem_cons_of_mem _ (ih _ _ m hm)
      · rw [if_pos (by simp [hq])] at hm
        exact List.mem_cons_of_mem _ (ih processed cache m hm)

/-- C6: for a compared pair — the candidate is not yet processed and the
pair passed the quick filter — the candidate is admitted to the seed's
group if and only if the pair's comprehensive score is at least the
adaptive threshold: `0.4` when both title and price similarity exceed
`0.8`, otherwise the caller-supplied threshold. -/
theorem candidate_admission_iff_threshold {Img : Type} (phash : Img → Option ImgHash)
    (threshold : ℚ) (images : ℕ → Option Img) (product1 : Product) (idx1 : ℕ)
    (idx2 : ℕ) (product2 : Product) (rest : List (ℕ × Product)) (processed : List ℕ)
    (cache : HashCache)
    (hnp : idx2 ∉ processed) (hnr : idx2 ∉ rest.map Prod.fst)
    (hqf : quick_filter_by_title_and_price product1 product2 0.3 0.5 = true) :
    (∃ d, (⟨idx2, product2, d⟩ : Member) ∈
        (innerLoop phash threshold images product1 idx1 ((idx2, product2) :: rest)
          processed cache).1) ↔
      adjusted_threshold_for threshold
          (calculate_comprehensive_similarity phash product1 product2
            (images idx1) (images idx2) cache).1 ≤
        (calculate_comprehensive_similarity phash product1 product2
          (images idx1) (images idx2) cache).1.comprehensive_score := by
  simp only [innerLoop, if_neg hnp, if_neg (by simp [hqf] : ¬ ¬ quick_filter_by_title_and_price
    product1 product2 0.3 0.5 = true)]
  by_cases hadm : adjusted_threshold_for threshold
      (calculate_comprehensive_similarity phash product1 product2
        (images idx1) (images idx2) cache).1 ≤
      (calculate_comprehensive_similarity phash product1 product2
        (images idx1) (images idx2) cache).1.comprehensive_score
  · rw [if_pos hadm]
    refine iff_of_true ?_ hadm
    exact ⟨some (calculate_comprehensive_similarity phash product1 product2
      (images idx1) (images idx2) cache).1, List.mem_cons_self _ _⟩
  · rw [if_neg hadm]
    refine iff_of_false ?_ hadm
    rintro ⟨d, hd⟩
    have := innerLoop_members_index phash threshold images product1 idx1 rest
      processed
      (calculate_comprehensive_similarity phash product1 product2
        (images idx1) (images idx2) cache).2 _ hd
    exact hnr this

/-- C6, witness: the admission rule applied to a concrete compared pair —
identical titles `"a b"` and price 10, no images — whose score `3/5`
meets the relaxed threshold `0.4`, so the candidate is admitted. -/
theorem candidate_admission_iff_threshold_witness :
    (∃ d, (⟨1, sampleProduct "a b" 10 "", d⟩ : Member) ∈
        (innerLoop (fun _ : Unit => none) 0.5 (fun _ => none) (sampleProduct "a b" 10 "") 0
          [(1, sampleProduct "a b" 10 "")] [] []).1) ↔
      adjusted_threshold_for 0.5
          (calculate_comprehensive_similarity (fun _ : Unit => none) (sampleProduct "a b" 10 "")
            (sampleProduct "a b" 10 "") none none []).1 ≤
        (calculate_comprehensive_similarity (fun _ : Unit => none) (sampleProduct "a b" 10 "")
          (sampleProduct "a b" 10 "") none none []).1.comprehensive_score := by
  have hqf : quick_filter_by_title_and_price (sampleProduct "a b" 10 "")
      (sampleProduct "a b" 10 "") 0.3 0.5 = true := by
    have htitle : calculate_title_similarity "a b" "a b" = 1 := by
      have htw : titleWords "a b" = {['a'], ['b']} := by decide
      simp [calculate_title_similarity, htw]
    rw [quick_filter_eq]
    show (if calculate_title_similarity "a b" "a b" < 0.3 then false
      else if 0 < (10 : ℚ) ∧ 0 < (10 : ℚ) then
        if (0.5 : ℚ) < |(10 : ℚ) - 10| / max (10 : ℚ) 10 then false else true
      else true) = true
    rw [htitle]
    norm_num
  exact candidate_admission_iff_threshold (fun _ : Unit => none) 0.5 (fun _ => none)
    (sampleProduct "a b" 10 "") 0 1 (sampleProduct "a b" 10 "") [] [] []
    (by simp) (by simp) hqf

/-! ### C8: groups are disjoint and never singletons -/

theorem innerLoop_processed_iff {Img : Type} (phash : Img → Option ImgHash) (threshold : ℚ)
    (images : ℕ → Option Img) (product1 : Product) (idx1 : ℕ) :
    ∀ (rest : List (ℕ × Product)) (processed : List ℕ) (cache : HashCache) (i : ℕ),
      (i ∈ (innerLoop phash threshold images product1 idx1 rest processed cache).2.1 ↔
        i ∈ processed ∨
          i ∈ (innerLoop phash threshold images product1 idx1 rest processed cache).1.map
            Member.index) := by
  intro rest
  induction rest with
  | nil =>
    intro processed cache i
    simp [innerLoop]
  | cons hd tl ih =>
    obtain ⟨idx2, product2⟩ := hd
    intro processed cache i
    simp only [innerLoop]
    by_cases hp : idx2 ∈ processed
    · rw [if_pos hp]
      exact ih processed cache i
    · rw [if_neg hp]
      by_cases hq : quick_filter_by_title_and_price product1 product2 0.3 0.5
      · rw [if_neg (by simp [hq])]
        by_cases hadm : adjusted_threshold_for threshold
            (calculate_comprehensive_similarity phash product1 product2
              (images idx1) (images idx2) cache).1 ≤
            (calculate_comprehensive_similarity phash product1 product2
              (images idx1) (images idx2) cache).1.comprehensive_score
        · rw [if_pos hadm]
          have := ih (idx2 :: processed)
            (calculate_comprehensive_similarity phash product1 product2
              (images idx1) (images idx2) cache).2 i
          simp only [List.mem_cons] at this
          simp only [List.map_cons, List.mem_cons, this]
          tauto
        · rw [if_neg hadm]
          exact ih processed _ i
      · rw [if_pos (by simp [hq])]
        exact ih processed cache i

theorem innerLoop_members_fresh {Img : Type} (phash : Img → Option ImgHash) (threshold : ℚ)
    (images : ℕ → Option Img) (product1 : Product) (idx1 : ℕ) :
    ∀ (rest : List (ℕ × Product)) (processed : List ℕ) (cache : HashCache),
      ((innerLoop phash threshold images product1 idx1 rest processed cache).1.map
        Member.index).Nodup ∧
      ∀ i ∈ (innerLoop phash threshold images product1 idx1 rest processed cache).1.map
          Member.index, i ∉ processed := by
  intro rest
  induction rest with
  | nil =>
    intro processed cache
    simp [innerLoop]
  | cons hd tl ih =>
    obtain ⟨idx2, product2⟩ := hd
    intro processed cache
    simp only [innerLoop]
    by_cases hp : idx2 ∈ processed
    · rw [if_pos hp]
      exact ih processed cache
    · rw [if_neg hp]
      by_cases hq : quick_filter_by_title_and_price product1 product2 0.3 0.5
      · rw [if_neg (by simp [hq])]
        by_cases hadm : adjusted_threshold_for threshold
            (calculate_comprehensive_similarity phash product1 product2
              (images idx1) (images idx2) cache).1 ≤
            (calculate_comprehensive_similarity phash product1 product2
              (images idx1) (images idx2) cache).1.comprehensive_score
        · rw [if_pos hadm]
          obtain ⟨hnd, hfr⟩ := ih (idx2 :: processed)
            (calculate_comprehensive_similarity phash product1 product2
              (images idx1) (images idx2) cache).2
          constructor
          · simp only [List.map_cons, List.nodup_cons]
            refine ⟨fun hin => ?_, hnd⟩
            exact (hfr idx2 hin) (List.mem_cons_self _ _)
          · intro i hi
            simp only [List.map_cons, List.mem_cons] at hi
            rcases hi with rfl | hi
            · exact hp
            · exact fun hip => (hfr i hi) (List.mem_cons_of_mem _ hip)
        · rw [if_neg hadm]
          exact ih processed _
      · rw [if_pos (by simp [hq])]
        exact ih processed cache

theorem outerLoop_spec {Img : Type} (phash : Img → Option ImgHash) (threshold : ℚ)
    (images : ℕ → Option Img) :
    ∀ (valid : List (ℕ × Product)) (processed : List ℕ) (cache : HashCache),
      (∀ g ∈ outerLoop phash threshold images valid processed cache, 2 ≤ g.length) ∧
      (∀ g ∈ outerLoop phash threshold images valid processed cache,
        (g.map Member.index).Nodup) ∧
      (∀ g ∈ outerLoop phash threshold images valid processed cache,
        ∀ i ∈ g.map Member.index, i ∉ processed) ∧
      List.Pairwise (fun g1 g2 => ∀ i ∈ g1.map Member.index, i ∉ g2.map Member.index)
        (outerLoop phash threshold images valid processed cache) := by
  intro valid
  induction valid with
  | nil =>
    intro processed cache
    simp [outerLoop]
  | cons hd rest ih =>
    obtain ⟨idx1, product1⟩ := hd
    intro processed cache
    simp only [outerLoop]
    by_cases hp : idx1 ∈ processed
    · rw [if_pos hp]
      exact ih processed cache
    · rw [if_neg hp]
      set r := innerLoop phash threshold images product1 idx1 rest (idx1 :: processed) cache
        with hr
      obtain ⟨hnd, hfr⟩ := innerLoop_members_fresh phash threshold images product1 idx1 rest
        (idx1 :: processed) cache
      have hpiff := innerLoop_processed_iff phash threshold images product1 idx1 rest
        (idx1 :: processed) cache
      obtain ⟨ih1, ih2, ih3, ih4⟩ := ih r.2.1 r.2.2
      have hsub : ∀ i, i ∈ processed → i ∈ r.2.1 := by
        intro i hi
        exact (hpiff i).mpr (Or.inl (List.mem_cons_of_mem _ hi))
      have hgrp : ∀ i, i ∈ (idx1 :: r.1.map Member.index) → i ∈ r.2.1 := by
        intro i hi
        rcases List.mem_cons.mp hi with rfl | hi
        · exact (hpiff i).mpr (Or.inl (List.mem_cons_self _ _))
        · exact (hpiff i).mpr (Or.inr hi)
      by_cases hlen : 1 < ((⟨idx1, product1, none⟩ : Member) :: r.1).length
      · rw [if_pos hlen]
        refine ⟨?_, ?_, ?_, ?_⟩
        · intro g hg
          rcases List.mem_cons.mp hg with rfl | hg
          · simpa using hlen
          · exact ih1 g hg
        · intro g hg
          rcases List.mem_cons.mp hg with rfl | hg
          · simp only [List.map_cons, List.nodup_cons]
            refine ⟨fun hin => ?_, hnd⟩
            exact (hfr idx1 hin) (List.mem_cons_self _ _)
          · exact ih2 g hg
        · intro g hg
          rcases List.mem_cons.mp hg with rfl | hg
          · intro i hi
            simp only [List.map_cons, List.mem_cons] at hi
            rcases hi with rfl | hi
            · exact hp
            · exact fun hip => (hfr i hi) (List.mem_cons_of_mem _ hip)
          · intro i hi hip
            exact (ih3 g hg i hi) (hsub i hip)
        · refine List.Pairwise.cons ?_ ih4
          intro g hg i hi
          intro hig
          have hir : i ∈ r.2.1 := by
            apply hgrp
            simpa using hi
          exact (ih3 g hg i hig) hir
      · rw [if_neg hlen]
        refine ⟨ih1, ih2, ?_, ih4⟩
        intro g hg i hi hip
        exact (ih3 g hg i hi) (hsub i hip)

/-- C8: for every batch — any record list, download results, completion
order, threshold and cache — the emitted groups are disjoint (no original
index occurs in two groups, nor twice in one group) and every emitted
group has at least two members; singleton groups are never emitted. -/
theorem groups_disjoint_and_nonsingleton {Img : Type} (phash : Img → Option ImgHash)
    (results : ℕ → Option Img) (order : List ℕ) (products : List Product)
    (threshold : ℚ) (cache : HashCache) :
    (∀ g ∈ find_similar_products_simple phash results order products threshold cache,
      2 ≤ g.length) ∧
    (∀ g ∈ find_similar_products_simple phash results order products threshold cache,
      (g.map Member.index).Nodup) ∧
    List.Pairwise (fun g1 g2 => ∀ m1 ∈ g1, ∀ m2 ∈ g2, m1.index ≠ m2.index)
      (find_similar_products_simple phash results order products threshold cache) := by
  simp only [find_similar_products_simple]
  obtain ⟨h1, h2, _, h4⟩ := outerLoop_spec phash threshold
    (fun i => if i ∈ submittedIdxs products then results i else none)
    (order.filterMap (fun i => (products.get? i).map (fun p => (i, p)))) [] cache
  refine ⟨h1, h2, ?_⟩
  refine h4.imp ?_
  intro g1 g2 h m1 hm1 m2 hm2 heq
  exact (h m1.index (List.mem_map_of_mem Member.index hm1))
    (heq ▸ List.mem_map_of_mem Member.index hm2)

/-- Concrete records for witnesses: pairwise token overlaps 3/4 (A,B),
3/4 (B,C) and 1/2 (A,C), all at price 10, all with a (failing) image
URL. -/
def productA : Product := sampleProduct "a b c" 10 "u1"

/-- Concrete record, see `productA`. -/
def productB : Product := sampleProduct "a b c d" 10 "u2"

/-- Concrete record, see `productA`. -/
def productC : Product := sampleProduct "a b d" 10 "u3"

/-- C8, witness: the disjointness/size theorem applied to a concrete
three-record batch. -/
theorem groups_disjoint_and_nonsingleton_witness :
    (∀ g ∈ find_similar_products_simple (fun _ : Unit => none) (fun _ => none) [0, 1, 2]
        [productA, productB, productC] 0.5 [], 2 ≤ g.length) ∧
    (∀ g ∈ find_similar_products_simple (fun _ : Unit => none) (fun _ => none) [0, 1, 2]
        [productA, productB, productC] 0.5 [], (g.map Member.index).Nodup) ∧
    List.Pairwise (fun g1 g2 => ∀ m1 ∈ g1, ∀ m2 ∈ g2, m1.index ≠ m2.index)
      (find_similar_products_simple (fun _ : Unit => none) (fun _ => none) [0, 1, 2]
        [productA, productB, productC] 0.5 []) :=
  groups_disjoint_and_nonsingleton (fun _ : Unit => none) (fun _ => none) [0, 1, 2]
    [productA, productB, productC] 0.5 []

/-! ### C10: whitespace-only titles are never grouped -/

theorem title_similarity_zero_of_left_empty (t1 t2 : String) (h : titleWords t1 = ∅) :
    calculate_title_similarity t1 t2 = 0 := by
  simp only [calculate_title_similarity, h, Finset.empty_inter, Finset.empty_union,
    Finset.card_empty]
  split
  · rfl
  · norm_num

theorem title_similarity_zero_of_right_empty (t1 t2 : String) (h : titleWords t2 = ∅) :
    calculate_title_similarity t1 t2 = 0 := by
  simp only [calculate_title_similarity, h, Finset.inter_empty, Finset.union_empty,
    Finset.card_empty]
  split
  · rfl
  · norm_num

theorem quick_filter_false_of_ws_title (product1 product2 : Product)
    (h : (∀ c ∈ product1.title.data, c.isWhitespace = true) ∨
      (∀ c ∈ product2.title.data, c.isWhitespace = true)) :
    quick_filter_by_title_and_price product1 product2 0.3 0.5 = false := by
  have hzero : calculate_title_similarity product1.title product2.title = 0 := by
    rcases h with h | h
    · exact title_similarity_zero_of_left_empty _ _ (titleWords_empty _ h)
    · exact title_similarity_zero_of_right_empty _ _ (titleWords_empty _ h)
  rw [quick_filter_eq, hzero, if_pos (by norm_num)]

theorem innerLoop_members_filtered {Img : Type} (phash : Img → Option ImgHash) (threshold : ℚ)
    (images : ℕ → Option Img) (product1 : Product) (idx1 : ℕ) :
    ∀ (rest : List (ℕ × Product)) (processed : List ℕ) (cache : HashCache),
      ∀ m ∈ (innerLoop phash threshold images product1 idx1 rest processed cache).1,
        quick_filter_by_title_and_price product1 m.product 0.3 0.5 = true := by
  intro rest
  induction rest with
  | nil =>
    intro processed cache m hm
    simp [innerLoop] at hm
  | cons hd tl ih =>
    obtain ⟨idx2, product2⟩ := hd
    intro processed cache m hm
    simp only [innerLoop] at hm
    by_cases hp : idx2 ∈ processed
    · rw [if_pos hp] at hm
      exact ih processed cache m hm
    · rw [if_neg hp] at hm
      by_cases hq : quick_filter_by_title_and_price product1 product2 0.3 0.5
      · rw [if_neg (by simp [hq])] at hm
        by_cases hadm : adjusted_threshold_for threshold
            (calculate_comprehensive_similarity phash product1 product2
              (images idx1) (images idx2) cache).1 ≤
            (calculate_comprehensive_similarity phash product1 product2
              (images idx1) (images idx2) cache).1.comprehensive_score
        · rw [if_pos hadm] at hm
          rcases List.mem_cons.mp hm with rfl | hm
          · exact hq
          · exact ih _ _ m hm
        · rw [if_neg hadm] at hm
          exact ih _ _ m hm
      · rw [if_pos (by simp [hq])] at hm
        exact ih processed cache m hm

theorem outerLoop_groups_shape {Img : Type} (phash : Img → Option ImgHash) (threshold : ℚ)
    (images : ℕ → Option Img) :
    ∀ (valid : List (ℕ × Product)) (processed : List ℕ) (cache : HashCache),
      ∀ g ∈ outerLoop phash threshold images valid processed cache,
        ∃ idx1 product1 ms, g = (⟨idx1, product1, none⟩ : Member) :: ms ∧ ms ≠ [] ∧
          ∀ m ∈ ms, quick_filter_by_title_and_price product1 m.product 0.3 0.5 = true := by
  intro valid
  induction valid with
  | nil =>
    intro processed cache g hg
    simp [outerLoop] at hg
  | cons hd rest ih =>
    obtain ⟨idx1, product1⟩ := hd
    intro processed cache g hg
    simp only [outerLoop] at hg
    by_cases hp : idx1 ∈ processed
    · rw [if_pos hp] at hg
      exact ih processed cache g hg
    · rw [if_neg hp] at hg
      by_cases hlen : 1 < ((⟨idx1, product1, none⟩ : Member) ::
          (innerLoop phash threshold images product1 idx1 rest (idx1 :: processed)
            cache).1).length
      · rw [if_pos hlen] at hg
        rcases List.mem_cons.mp hg with rfl | hg
        · refine ⟨idx1, product1,
            (innerLoop phash threshold images product1 idx1 rest (idx1 :: processed) cache).1,
            rfl, ?_, ?_⟩
          · intro hnil
            rw [hnil] at hlen
            simp at hlen
          · exact innerLoop_members_filtered phash threshold images product1 idx1 rest
              (idx1 :: processed) cache
        · exact ih _ _ g hg
      · rw [if_neg hlen] at hg
        exact ih _ _ g hg

/-- C10: a pair in which either record's title is empty or whitespace-only
is always rejected by the quick filter (its title similarity is
`0.0 < 0.3`), and consequently a record with a whitespace-only title never
appears in any emitted group — not as a seed and not as an admitted
candidate — regardless of its image or price. -/
theorem whitespace_title_never_grouped {Img : Type} (phash : Img → Option ImgHash)
    (results : ℕ → Option Img) (order : List ℕ) (products : List Product)
    (threshold : ℚ) (cache : HashCache) :
    (∀ product1 product2 : Product,
      ((∀ c ∈ product1.title.data, c.isWhitespace = true) ∨
        (∀ c ∈ product2.title.data, c.isWhitespace = true)) →
      quick_filter_by_title_and_price product1 product2 0.3 0.5 = false) ∧
    (∀ g ∈ find_similar_products_simple phash results order products threshold cache,
      ∀ m ∈ g, ¬ (∀ c ∈ m.product.title.data, c.isWhitespace = true)) := by
  refine ⟨quick_filter_false_of_ws_title, ?_⟩
  intro g hg m hm hws
  simp only [find_similar_products_simple] at hg
  obtain ⟨idx1, product1, ms, rfl, hne, hflt⟩ := outerLoop_groups_shape phash threshold
    (fun i => if i ∈ submittedIdxs products then results i else none)
    (order.filterMap (fun i => (products.get? i).map (fun p => (i, p)))) [] cache g hg
  rcases List.mem_cons.mp hm with rfl | hm
  · obtain ⟨m0, hm0⟩ := List.exists_mem_of_ne_nil ms hne
    have hqt := hflt m0 hm0
    have := quick_filter_false_of_ws_title _ m0.product (Or.inl hws)
    rw [hqt] at this
    exact Bool.noConfusion this
  · have hqt := hflt m hm
    have := quick_filter_false_of_ws_title product1 m.product (Or.inr hws)
    rw [hqt] at this
    exact Bool.noConfusion this

/-- C10, witness: the filter-rejection applied to a record with the
whitespace title `" "` against a record titled `"x"`, and the group
statement applied to a concrete batch. -/
theorem whitespace_title_never_grouped_witness :
    quick_filter_by_title_and_price (sampleProduct " " 10 "") (sampleProduct "x" 10 "")
        0.3 0.5 = false ∧
    (∀ g ∈ find_similar_products_simple (fun _ : Unit => none) (fun _ => none) [0, 1, 2]
        [productA, productB, productC] 0.5 [],
      ∀ m ∈ g, ¬ (∀ c ∈ m.product.title.data, c.isWhitespace = true)) :=
  ⟨(whitespace_title_never_grouped (fun _ : Unit => none) (fun _ => none) [] [] 0.5 []).1
      (sampleProduct " " 10 "") (sampleProduct "x" 10 "") (Or.inl (by decide)),
    (whitespace_title_never_grouped (fun _ : Unit => none) (fun _ => none) [0, 1, 2]
      [productA, productB, productC] 0.5 []).2⟩

/-! ### C9: determinism and the download completion order -/

theorem innerLoop_nil {Img : Type} (phash : Img → Option ImgHash) (threshold : ℚ)
    (images : ℕ → Option Img) (product1 : Product) (idx1 : ℕ) (processed : List ℕ)
    (cache : HashCache) :
    innerLoop phash threshold images product1 idx1 [] processed cache =
      ([], processed, cache) := rfl

theorem innerLoop_cons {Img : Type} (phash : Img → Option ImgHash) (threshold : ℚ)
    (images : ℕ → Option Img) (product1 : Product) (idx1 idx2 : ℕ) (product2 : Product)
    (rest : List (ℕ × Product)) (processed : List ℕ) (cache : HashCache) :
    innerLoop phash threshold images product1 idx1 ((idx2, product2) :: rest)
        processed cache =
      if idx2 ∈ processed then
        innerLoop phash threshold images product1 idx1 rest processed cache
      else if ¬ quick_filter_by_title_and_price product1 product2 0.3 0.5 then
        innerLoop phash threshold images product1 idx1 rest processed cache
      else if adjusted_threshold_for threshold
          (calculate_comprehensive_similarity phash product1 product2
            (images idx1) (images idx2) cache).1 ≤
          (calculate_comprehensive_similarity phash product1 product2
            (images idx1) (images idx2) cache).1.comprehensive_score then
        ((⟨idx2, product2, some (calculate_comprehensive_similarity phash product1 product2
            (images idx1) (images idx2) cache).1⟩ : Member) ::
          (innerLoop phash threshold images product1 idx1 rest (idx2 :: processed)
            (calculate_comprehensive_similarity phash product1 product2
              (images idx1) (images idx2) cache).2).1,
         (innerLoop phash threshold images product1 idx1 rest (idx2 :: processed)
           (calculate_comprehensive_similarity phash product1 product2
             (images idx1) (images idx2) cache).2).2.1,
         (innerLoop phash threshold images product1 idx1 rest (idx2 :: processed)
           (calculate_comprehensive_similarity phash product1 product2
             (images idx1) (images idx2) cache).2).2.2)
      else
        innerLoop phash threshold images product1 idx1 rest processed
          (calculate_comprehensive_similarity phash product1 product2
            (images idx1) (images idx2) cache).2 := rfl

theorem outerLoop_nil {Img : Type} (phash : Img → Option ImgHash) (threshold : ℚ)
    (images : ℕ → Option Img) (processed : List ℕ) (cache : HashCache) :
    outerLoop phash threshold images [] processed cache = [] := rfl

theorem outerLoop_cons {Img : Type} (phash : Img → Option ImgHash) (threshold : ℚ)
    (images : ℕ → Option Img) (idx1 : ℕ) (product1 : Product)
    (rest : List (ℕ × Product)) (processed : List ℕ) (cache : HashCache) :
    outerLoop phash threshold images ((idx1, product1) :: rest) processed cache =
      if idx1 ∈ processed then outerLoop phash threshold images rest processed cache
      else if 1 < ((⟨idx1, product1, none⟩ : Member) ::
          (innerLoop phash threshold images product1 idx1 rest (idx1 :: processed)
            cache).1).length then
        ((⟨idx1, product1, none⟩ : Member) ::
          (innerLoop phash threshold images product1 idx1 rest (idx1 :: processed) cache).1) ::
          outerLoop phash threshold images rest
            (innerLoop phash threshold images product1 idx1 rest (idx1 :: processed)
              cache).2.1
            (innerLoop phash threshold images product1 idx1 rest (idx1 :: processed)
              cache).2.2
      else
        outerLoop phash threshold images rest
          (innerLoop phash threshold images product1 idx1 rest (idx1 :: processed) cache).2.1
          (innerLoop phash threshold images product1 idx1 rest (idx1 :: processed)
            cache).2.2 := rfl

theorem comprehensive_title_no_images {Img : Type} (phash : Img → Option ImgHash)
    (product1 product2 : Product) (cache : HashCache) :
    (calculate_comprehensive_similarity phash product1 product2 none none
      cache).1.title_similarity =
      calculate_title_similarity product1.title product2.title := rfl

theorem comprehensive_price_no_images {Img : Type} (phash : Img → Option ImgHash)
    (product1 product2 : Product) (cache : HashCache) :
    (calculate_comprehensive_similarity phash product1 product2 none none
      cache).1.price_similarity =
      calculate_price_similarity product1.price_numeric product2.price_numeric := rfl

theorem comprehensive_cache_no_images {Img : Type} (phash : Img → Option ImgHash)
    (product1 product2 : Product) (cache : HashCache) :
    (calculate_comprehensive_similarity phash product1 product2 none none cache).2 =
      cache := rfl

theorem title_similarity_of_cards (t1 t2 : String) (a b : ℕ)
    (h1 : (titleWords t1 ∩ titleWords t2).card = a)
    (h2 : (titleWords t1 ∪ titleWords t2).card = b) (hb : b ≠ 0) :
    calculate_title_similarity t1 t2 = (a : ℚ) / (b : ℚ) := by
  simp only [calculate_title_similarity, h1, h2, if_neg hb]

theorem price_similarity_ten : calculate_price_similarity 10 10 = 1 := by
  rw [calculate_price_similarity, if_neg (by norm_num)]
  norm_num

theorem innerLoop_congr {Img : Type} (phash : Img → Option ImgHash) (threshold : ℚ)
    (images1 images2 : ℕ → Option Img) (product1 : Product) (idx1 : ℕ) :
    ∀ (rest : List (ℕ × Product)) (processed : List ℕ) (cache : HashCache),
      images1 idx1 = images2 idx1 → (∀ p ∈ rest, images1 p.1 = images2 p.1) →
      innerLoop phash threshold images1 product1 idx1 rest processed cache =
        innerLoop phash threshold images2 product1 idx1 rest processed cache := by
  intro rest
  induction rest with
  | nil =>
    intro processed cache h1 h2
    simp [innerLoop]
  | cons hd tl ih =>
    obtain ⟨idx2, product2⟩ := hd
    intro processed cache h1 h2
    have hidx2 : images1 idx2 = images2 idx2 := h2 (idx2, product2) (List.mem_cons_self _ _)
    have ih' : ∀ (pr : List ℕ) (c : HashCache),
        innerLoop phash threshold images1 product1 idx1 tl pr c =
          innerLoop phash threshold images2 product1 idx1 tl pr c :=
      fun pr c => ih pr c h1 (fun p hp => h2 p (List.mem_cons_of_mem _ hp))
    simp only [innerLoop, h1, hidx2, ih']

theorem outerLoop_congr {Img : Type} (phash : Img → Option ImgHash) (threshold : ℚ)
    (images1 images2 : ℕ → Option Img) :
    ∀ (valid : List (ℕ × Product)) (processed : List ℕ) (cache : HashCache),
      (∀ p ∈ valid, images1 p.1 = images2 p.1) →
      outerLoop phash threshold images1 valid processed cache =
        outerLoop phash threshold images2 valid processed cache := by
  intro valid
  induction valid with
  | nil =>
    intro processed cache h
    simp [outerLoop]
  | cons hd rest ih =>
    obtain ⟨idx1, product1⟩ := hd
    intro processed cache h
    have h1 : images1 idx1 = images2 idx1 := h (idx1, product1) (List.mem_cons_self _ _)
    have hin : ∀ (pr : List ℕ) (c : HashCache),
        innerLoop phash threshold images1 product1 idx1 rest pr c =
          innerLoop phash threshold images2 product1 idx1 rest pr c :=
      fun pr c => innerLoop_congr phash threshold images1 images2 product1 idx1 rest pr c h1
        (fun p hp => h p (List.mem_cons_of_mem _ hp))
    have ih' : ∀ (pr : List ℕ) (c : HashCache),
        outerLoop phash threshold images1 rest pr c =
          outerLoop phash threshold images2 rest pr c :=
      fun pr c => ih pr c (fun p hp => h p (List.mem_cons_of_mem _ hp))
    simp only [outerLoop, h1, hin, ih']

/-- C9 (amended): the clustering output is a deterministic function of the
ordered record list, the download outcomes at the completion-ordered
indices, the completion order itself, and the hash-cache state: two runs
whose download results agree on every index of the (fixed) completion
order produce identical groups.  Identical records, images and cache alone
do NOT determine the groups, because `as_completed` may hand back the
futures in a different order — see the counterexample. -/
theorem clustering_deterministic_for_fixed_order {Img : Type} (phash : Img → Option ImgHash)
    (results1 results2 : ℕ → Option Img) (order : List ℕ) (products : List Product)
    (threshold : ℚ) (cache : HashCache)
    (h : ∀ i ∈ order, results1 i = results2 i) :
    find_similar_products_simple phash results1 order products threshold cache =
      find_similar_products_simple phash results2 order products threshold cache := by
  simp only [find_similar_products_simple]
  apply outerLoop_congr
  intro p hp
  obtain ⟨i, hi, hmap⟩ := List.mem_filterMap.mp hp
  cases hq : products.get? i with
  | none => rw [hq] at hmap; simp at hmap
  | some q =>
    rw [hq] at hmap
    simp only [Option.map_some'] at hmap
    obtain rfl := Option.some.inj hmap
    by_cases hs : i ∈ submittedIdxs products
    · simp [hs, h i hi]
    · simp [hs]

/-- C9, witness: two runs with literally equal download outcomes and the
same completion order coincide. -/
theorem clustering_deterministic_witness :
    find_similar_products_simple (fun _ : Unit => none) (fun _ => none) [0, 1, 2]
        [productA, productB, productC] 0.5 [] =
      find_similar_products_simple (fun _ : Unit => none) (fun _ => none) [0, 1, 2]
        [productA, productB, productC] 0.5 [] :=
  clustering_deterministic_for_fixed_order (fun _ : Unit => none) (fun _ => none)
    (fun _ => none) [0, 1, 2] [productA, productB, productC] 0.5 [] (fun _ _ => rfl)


theorem tAB : calculate_title_similarity "a b c" "a b c d" = 3/4 := by
  rw [title_similarity_of_cards _ _ 3 4 (by decide) (by decide) (by norm_num)]
  norm_num

theorem tAC : calculate_title_similarity "a b c" "a b d" = 1/2 := by
  rw [title_similarity_of_cards _ _ 2 4 (by decide) (by decide) (by norm_num)]
  norm_num

theorem tBA : calculate_title_similarity "a b c d" "a b c" = 3/4 := by
  rw [title_similarity_of_cards _ _ 3 4 (by decide) (by decide) (by norm_num)]
  norm_num

theorem tBC : calculate_title_similarity "a b c d" "a b d" = 3/4 := by
  rw [title_similarity_of_cards _ _ 3 4 (by decide) (by decide) (by norm_num)]
  norm_num

theorem qfAB : quick_filter_by_title_and_price productA productB (3/10) (1/2) = true := by
  rw [quick_filter_eq]
  show (if calculate_title_similarity "a b c" "a b c d" < 3/10 then false
    else if 0 < (10 : ℚ) ∧ 0 < (10 : ℚ) then
      if (1/2 : ℚ) < |(10 : ℚ) - 10| / max (10 : ℚ) 10 then false else true
    else true) = true
  rw [tAB]
  norm_num

theorem qfAC : quick_filter_by_title_and_price productA productC (3/10) (1/2) = true := by
  rw [quick_filter_eq]
  show (if calculate_title_similarity "a b c" "a b d" < 3/10 then false
    else if 0 < (10 : ℚ) ∧ 0 < (10 : ℚ) then
      if (1/2 : ℚ) < |(10 : ℚ) - 10| / max (10 : ℚ) 10 then false else true
    else true) = true
  rw [tAC]
  norm_num

theorem qfBA : quick_filter_by_title_and_price productB productA (3/10) (1/2) = true := by
  rw [quick_filter_eq]
  show (if calculate_title_similarity "a b c d" "a b c" < 3/10 then false
    else if 0 < (10 : ℚ) ∧ 0 < (10 : ℚ) then
      if (1/2 : ℚ) < |(10 : ℚ) - 10| / max (10 : ℚ) 10 then false else true
    else true) = true
  rw [tBA]
  norm_num

theorem qfBC : quick_filter_by_title_and_price productB productC (3/10) (1/2) = true := by
  rw [quick_filter_eq]
  show (if calculate_title_similarity "a b c d" "a b d" < 3/10 then false
    else if 0 < (10 : ℚ) ∧ 0 < (10 : ℚ) then
      if (1/2 : ℚ) < |(10 : ℚ) - 10| / max (10 : ℚ) 10 then false else true
    else true) = true
  rw [tBC]
  norm_num

theorem scAB : (calculate_comprehensive_similarity (fun _ : Unit => none) productA productB
    none none []).1.comprehensive_score = 1/2 := by
  rw [comprehensive_score_no_images]
  show 0 * 0.4 + calculate_title_similarity "a b c" "a b c d" * 0.4 +
    calculate_price_similarity 10 10 * 0.2 = 1/2
  rw [tAB, price_similarity_ten]
  norm_num

theorem scAC : (calculate_comprehensive_similarity (fun _ : Unit => none) productA productC
    none none []).1.comprehensive_score = 2/5 := by
  rw [comprehensive_score_no_images]
  show 0 * 0.4 + calculate_title_similarity "a b c" "a b d" * 0.4 +
    calculate_price_similarity 10 10 * 0.2 = 2/5
  rw [tAC, price_similarity_ten]
  norm_num

theorem scBA : (calculate_comprehensive_similarity (fun _ : Unit => none) productB productA
    none none []).1.comprehensive_score = 1/2 := by
  rw [comprehensive_score_no_images]
  show 0 * 0.4 + calculate_title_similarity "a b c d" "a b c" * 0.4 +
    calculate_price_similarity 10 10 * 0.2 = 1/2
  rw [tBA, price_similarity_ten]
  norm_num

theorem scBC : (calculate_comprehensive_similarity (fun _ : Unit => none) productB productC
    none none []).1.comprehensive_score = 1/2 := by
  rw [comprehensive_score_no_images]
  show 0 * 0.4 + calculate_title_similarity "a b c d" "a b d" * 0.4 +
    calculate_price_similarity 10 10 * 0.2 = 1/2
  rw [tBC, price_similarity_ten]
  norm_num

theorem adjAB : adjusted_threshold_for (1/2) ((calculate_comprehensive_similarity
    (fun _ : Unit => none) productA productB none none []).1) = 1/2 := by
  simp only [adjusted_threshold_for, comprehensive_title_no_images,
    comprehensive_price_no_images]
  rw [if_neg]
  intro h
  have := h.1
  rw [show productA.title = "a b c" from rfl, show productB.title = "a b c d" from rfl,
    tAB] at this
  norm_num at this

theorem adjAC : adjusted_threshold_for (1/2) ((calculate_comprehensive_similarity
    (fun _ : Unit => none) productA productC none none []).1) = 1/2 := by
  simp only [adjusted_threshold_for, comprehensive_title_no_images,
    comprehensive_price_no_images]
  rw [if_neg]
  intro h
  have := h.1
  rw [show productA.title = "a b c" from rfl, show productC.title = "a b d" from rfl,
    tAC] at this
  norm_num at this

theorem adjBA : adjusted_threshold_for (1/2) ((calculate_comprehensive_similarity
    (fun _ : Unit => none) productB productA none none []).1) = 1/2 := by
  simp only [adjusted_threshold_for, comprehensive_title_no_images,
    comprehensive_price_no_images]
  rw [if_neg]
  intro h
  have := h.1
  rw [show productB.title = "a b c d" from rfl, show productA.title = "a b c" from rfl,
    tBA] at this
  norm_num at this

theorem adjBC : adjusted_threshold_for (1/2) ((calculate_comprehensive_similarity
    (fun _ : Unit => none) productB productC none none []).1) = 1/2 := by
  simp only [adjusted_threshold_for, comprehensive_title_no_images,
    comprehensive_price_no_images]
  rw [if_neg]
  intro h
  have := h.1
  rw [show productB.title = "a b c d" from rfl, show productC.title = "a b d" from rfl,
    tBC] at this
  norm_num at this

theorem find_simple_run_order012 :
    find_similar_products_simple (fun _ : Unit => none) (fun _ => none) [0, 1, 2]
    [productA, productB, productC] 0.5 [] =
    [[⟨0, productA, none⟩, ⟨1, productB, some ((calculate_comprehensive_similarity
      (fun _ : Unit => none) productA productB none none []).1)⟩]] := by
  simp only [find_similar_products_simple, ite_self]
  show outerLoop (fun _ : Unit => none) 0.5 (fun _ => none)
    [(0, productA), (1, productB), (2, productC)] [] [] = _
  norm_num [outerLoop_cons, outerLoop_nil, innerLoop_cons, innerLoop_nil,
    qfAB, qfAC, adjAB, adjAC, scAB, scAC, comprehensive_cache_no_images,
    List.mem_cons]

theorem find_simple_run_order102 :
    find_similar_products_simple (fun _ : Unit => none) (fun _ => none) [1, 0, 2]
    [productA, productB, productC] 0.5 [] =
    [[⟨1, productB, none⟩,
      ⟨0, productA, some ((calculate_comprehensive_similarity
        (fun _ : Unit => none) productB productA none none []).1)⟩,
      ⟨2, productC, some ((calculate_comprehensive_similarity
        (fun _ : Unit => none) productB productC none none []).1)⟩]] := by
  simp only [find_similar_products_simple, ite_self]
  show outerLoop (fun _ : Unit => none) 0.5 (fun _ => none)
    [(1, productB), (0, productA), (2, productC)] [] [] = _
  norm_num [outerLoop_cons, outerLoop_nil, innerLoop_cons, innerLoop_nil,
    qfBA, qfBC, adjBA, adjBC, scBA, scBC, comprehensive_cache_no_images,
    List.mem_cons]

/-- C9, counterexample: both `[0, 1, 2]` and `[1, 0, 2]` are legitimate
completion orders of the download futures of the same three records (the
submitted indices are `[0, 1, 2]`), the download results and the cache are
identical, yet the emitted groups differ: seed A only captures B (one
group of two), while seed B captures both A and C (one group of three).
Identical ordered input with identical images and cache state therefore
does not determine the output. -/
theorem clustering_completion_order_counterexample :
    [0, 1, 2].Perm (submittedIdxs [productA, productB, productC]) ∧
    [1, 0, 2].Perm (submittedIdxs [productA, productB, productC]) ∧
    find_similar_products_simple (fun _ : Unit => none) (fun _ => none) [0, 1, 2]
        [productA, productB, productC] 0.5 [] ≠
      find_similar_products_simple (fun _ : Unit => none) (fun _ => none) [1, 0, 2]
        [productA, productB, productC] 0.5 [] := by
  have hsub : submittedIdxs [productA, productB, productC] = [0, 1, 2] := by decide
  refine ⟨by rw [hsub], by rw [hsub]; exact List.Perm.swap 0 1 [2], ?_⟩
  rw [find_simple_run_order012, find_simple_run_order102]
  intro h
  simp at h

/-! ### C1: records with empty imageUrl and the clustering phase -/

/-- C1: two rows with identical non-empty title `"apple"`, identical
nonzero price `10` and empty `imageUrl` are NOT placed into a group by the
source: the download phase only appends products with a truthy `image_url`
to `valid_products` (line 230 filters the submissions and lines 240-251
append only completed futures), so neither row is submitted
(`submittedIdxs = []`), the only possible completion order is `[]`, and the
clustering output is empty — even though their pair would score
`0.6 = 0.4·1 + 0.2·1 ≥ 0.5` had it been compared.  This contradicts the
spec, which requires records with an empty `imageUrl` to flow into
clustering; records whose fetch merely FAILS are indeed kept (the
except/else branches append them), so the slip is specific to empty
URLs. -/
theorem empty_image_url_rows_never_clustered :
    submittedIdxs [sampleProduct "apple" 10 "", sampleProduct "apple" 10 ""] = [] ∧
    find_similar_products_simple (fun _ : Unit => none) (fun _ => none) []
      [sampleProduct "apple" 10 "", sampleProduct "apple" 10 ""] 0.5 [] = [] ∧
    (calculate_comprehensive_similarity (fun _ : Unit => none) (sampleProduct "apple" 10 "")
      (sampleProduct "apple" 10 "") none none []).1.comprehensive_score = 3/5 ∧
    (0.5 : ℚ) ≤ 3/5 := by
  refine ⟨by decide, rfl, ?_, by norm_num⟩
  have happle : calculate_title_similarity "apple" "apple" = 1 := by
    have htw : titleWords "apple" = {['a', 'p', 'p', 'l', 'e']} := by decide
    simp [calculate_title_similarity, htw]
  rw [comprehensive_score_no_images]
  show 0 * 0.4 + calculate_title_similarity "apple" "apple" * 0.4 +
    calculate_price_similarity 10 10 * 0.2 = 3/5
  rw [happle, price_similarity_ten]
  norm_num

end CsvAnalyzerSimple
